import Mathlib

/-!
Verification development for the cideMOD particle-intercalation and degradation models.

The Python source (src/cideMOD/models/particle_models/explicit_coupling.py and
src/cideMOD/models/degradation/equations.py) is embedded shallowly:

* the per-node state database of `StandardParticleIntercalation` (the numpy arrays
  `c_s_0_db`, `c_s_1_db`, `c_s__1_db` of shape (nodes, n_materials, dofs)) is a record of
  functions `Fin nodes → Fin nmat → Fin dofs → ℚ` (machine floats are modelled as exact
  rationals, and as reals where the code applies transcendental functions);
* fallible operations (Python `assert`, library errors) return `Option`;
* `numpy.linalg.norm` of an array with default `ord` is the Frobenius norm, the square
  root of the sum of squares of all entries.
-/

set_option maxHeartbeats 1000000

/-- Per-node per-material particle state database, the three generation arrays built by
`StandardParticleIntercalation.build_db`: `c_s_0_db` (previous), `c_s_1_db` (current),
`c_s__1_db` (twice previous), each of numpy shape (nodes, nmat, dofs). -/
structure ParticleDB (nodes nmat dofs : ℕ) where
  c_s_0_db : Fin nodes → Fin nmat → Fin dofs → ℚ
  c_s_1_db : Fin nodes → Fin nmat → Fin dofs → ℚ
  c_s__1_db : Fin nodes → Fin nmat → Fin dofs → ℚ

/-- Per-material data of an active material used by the particle model; `c_s_ini` is the
configured initial concentration (`material.c_s_ini` in the source, a float or a dolfin
`Constant`, modelled as a rational). -/
structure Material where
  c_s_ini : ℚ

/-- Fill all three generation arrays with a per-material value `v i` at every node and
every radial dof: the effect of the loop body `self.c_s_0_db[:,i,:].fill(c_s)` (and the
same for `c_s_1_db`, `c_s__1_db`) in `StandardParticleIntercalation.initial_guess`,
executed for every material index. -/
def fill_db {n m d : ℕ} (v : Fin m → ℚ) : ParticleDB n m d :=
  ⟨fun _ i _ => v i, fun _ i _ => v i, fun _ i _ => v i⟩

/-- Embedding of `StandardParticleIntercalation.initial_guess` (explicit_coupling.py,
lines 97-108).  A non-empty `c_s_ini` list is length-checked against the number of
materials (`assert len(c_s_ini) == len(self.particles)`, modelled by `none` on failure);
an empty list falls back to `[material.c_s_ini for material in self.particles]`.  The
surviving list is then written identically into all three generation arrays.  The
per-value `isinstance(c_s, float)` assertion is discharged by the type ℚ. -/
def initial_guess {n m d : ℕ} (mats : Fin m → Material) (db : ParticleDB n m d)
    (c_s_ini : List ℚ) : Option (ParticleDB n m d) :=
  if c_s_ini ≠ [] then
    if c_s_ini.length = m then
      some (fill_db (fun i => c_s_ini.getD i 0))
    else none
  else
    some (fill_db (fun i => (mats i).c_s_ini))

/-- First statement of `StandardParticleIntercalation.advance_problem` (line 182):
`self.c_s__1_db[:,:,:] = self.c_s_0_db[:,:,:]`. -/
def advance_assign_prevprev {n m d : ℕ} (db : ParticleDB n m d) : ParticleDB n m d :=
  { db with c_s__1_db := db.c_s_0_db }

/-- Second statement of `StandardParticleIntercalation.advance_problem` (line 183):
`self.c_s_0_db[:,:,:] = self.c_s_1_db[:,:,:]`. -/
def advance_assign_prev {n m d : ℕ} (db : ParticleDB n m d) : ParticleDB n m d :=
  { db with c_s_0_db := db.c_s_1_db }

/-- Embedding of `StandardParticleIntercalation.advance_problem` (lines 181-183): the two
in-place array assignments executed in source order. -/
def advance_problem {n m d : ℕ} (db : ParticleDB n m d) : ParticleDB n m d :=
  advance_assign_prev (advance_assign_prevprev db)

/-- Embedding of `StandardParticleIntercalation.get_average_c_s` (lines 255-267): for each
node and material, `c.sum()/c.size` over the current-generation radial values, minus the
configured `material.c_s_ini` when `increment` is set. -/
def get_average_c_s {n m d : ℕ} (increment : Bool) (mats : Fin m → Material)
    (db : ParticleDB n m d) : Fin n → Fin m → ℚ :=
  fun a i =>
    (∑ r : Fin d, db.c_s_1_db a i r) / (d : ℚ) - (if increment then (mats i).c_s_ini else 0)

/-- Elementwise array expression built on line 186 of explicit_coupling.py:
`nu * ( 1/(1+tau) * self.c_s_1_db - self.c_s_0_db + tau/(1+tau)*self.c_s__1_db )`. -/
def time_filter_vec {n m d : ℕ} (nu tau : ℚ) (db : ParticleDB n m d) :
    Fin n → Fin m → Fin d → ℚ :=
  fun a i r =>
    nu * (1 / (1 + tau) * db.c_s_1_db a i r - db.c_s_0_db a i r
      + tau / (1 + tau) * db.c_s__1_db a i r)

/-- Sum of squares of all entries of a (nodes, nmat, dofs) array. -/
def sumSq {n m d : ℕ} (v : Fin n → Fin m → Fin d → ℚ) : ℚ :=
  ∑ a : Fin n, ∑ i : Fin m, ∑ r : Fin d, (v a i r) ^ 2

/-- Frobenius norm of a (nodes, nmat, dofs) array: `numpy.linalg.norm` with default `ord`
on an array of any dimension. -/
noncomputable def frobNorm {n m d : ℕ} (v : Fin n → Fin m → Fin d → ℚ) : ℝ :=
  Real.sqrt ((sumSq v : ℚ) : ℝ)

/-- Embedding of `StandardParticleIntercalation.get_time_filter_error` (lines 185-187):
the Frobenius norm of the elementwise filter expression. -/
noncomputable def get_time_filter_error {n m d : ℕ} (nu tau : ℚ)
    (db : ParticleDB n m d) : ℝ :=
  frobNorm (time_filter_vec nu tau db)

/-- Formula asserted by the specification for the time-filter error, written from the
spec's words with `previous = c_s_0_db`, `current = c_s_1_db`, `prevprev = c_s__1_db`:
the norm of `nu*(previous/(1+tau) - current + tau*prevprev/(1+tau))`. -/
def claimed_time_filter_vec {n m d : ℕ} (nu tau : ℚ) (db : ParticleDB n m d) :
    Fin n → Fin m → Fin d → ℚ :=
  fun a i r =>
    nu * (db.c_s_0_db a i r / (1 + tau) - db.c_s_1_db a i r
      + tau * db.c_s__1_db a i r / (1 + tau))

/-- Norm of the spec-claimed filter expression. -/
noncomputable def claimed_time_filter_error {n m d : ℕ} (nu tau : ℚ)
    (db : ParticleDB n m d) : ℝ :=
  frobNorm (claimed_time_filter_vec nu tau db)

/-- Amended formula: same expression with the roles of `current` and `previous`
exchanged in the first two terms, matching the source line 186:
the norm of `nu*(current/(1+tau) - previous + tau*prevprev/(1+tau))`. -/
def amended_time_filter_vec {n m d : ℕ} (nu tau : ℚ) (db : ParticleDB n m d) :
    Fin n → Fin m → Fin d → ℚ :=
  fun a i r =>
    nu * (db.c_s_1_db a i r / (1 + tau) - db.c_s_0_db a i r
      + tau * db.c_s__1_db a i r / (1 + tau))

/-- Norm of the amended filter expression. -/
noncomputable def amended_time_filter_error {n m d : ℕ} (nu tau : ℚ)
    (db : ParticleDB n m d) : ℝ :=
  frobNorm (amended_time_filter_vec nu tau db)

/-- Modelled from the spec: the time scheme object `DT` (its class is not included under
src; only callers appear there).  The spec states time is discretized with the implicit
Euler method, so `DT.dt(x0, x1)` is the backward difference `(x1 - x0) / delta_t`. -/
def DT_dt (delta_t x0 x1 : ℚ) : ℚ := (x1 - x0) / delta_t

/-- Embedding of `SEI.delta_growth` (degradation/equations.py, lines 191-196), evaluated
pointwise at one (node, material) pair: the weak-form factors `test * dx` are dropped
(the residual is affine in the test function, so the pointwise residual is the quantity
the weak form sets to zero).  The `DT`-truthy branch is
`DT.dt(delta_0, delta_1) + j_SEI * SEI.M / (2 * F * SEI.rho)`, the falsy branch
`delta_0 - delta_1`. -/
def delta_growth (hasDT : Bool) (delta_t delta_0 delta_1 j_SEI M F rho : ℚ) : ℚ :=
  if hasDT then DT_dt delta_t delta_0 delta_1 + j_SEI * M / (2 * F * rho)
  else delta_0 - delta_1

/-- Per-material mechanical data of an active material used by the LAM model
(`am.critical_stress` in the source). -/
structure ActiveMaterial where
  critical_stress : ℝ

/-- Per-(node, material) value of the expression built by the loop body of
`LAM.eps_s_variation` (degradation/equations.py, lines 82-90): starting from `value = 0`,
when the LAM model is `stress` the code forms
`sigma_h_am = conditional(gt(sigma_h, 0), sigma_h, 0)` and subtracts
`delta_t * beta * (sigma_h_am / critical_stress) ** m`.  The UFL power with a real
exponent is modelled by `Real.rpow`. -/
noncomputable def eps_s_entry (model : String) (beta m delta_t sigma_crit sigma_h : ℝ) :
    ℝ :=
  if model = "stress" then
    0 - delta_t * beta * ((if 0 < sigma_h then sigma_h else 0) / sigma_crit) ^ m
  else 0

/-- Embedding of `LAM.eps_s_variation` (lines 82-90): one entry per active material,
pairing each material with its hydrostatic-stress expression. -/
noncomputable def eps_s_variation (model : String) (beta m delta_t : ℝ)
    (ams : List ActiveMaterial) (sigma_h : List ℝ) : List ℝ :=
  List.zipWith (fun am sh => eps_s_entry model beta m delta_t am.critical_stress sh)
    ams sigma_h

/-- Embedding of `StandardParticleIntercalation._j_li` (explicit_coupling.py, lines
234-253), written exactly in the source's intermediate steps:
`eta = phi - OCV(c_s/c_s_max)`;
`BV = exp(alpha*F*eta/(R*T)) - exp(-alpha*F*eta/(R*T))`;
`k_0_eff = k_0 * exp(k_0_Ea/R * (1/k_0_Tref - 1/T))`;
`i_0 = k_0_eff * c_e**alpha * (c_s_max - c_s)**alpha * c_s**alpha`;
returns `i_0 * BV`.  Powers with real exponent `alpha` are `Real.rpow`. -/
noncomputable def j_li_code (c_s c_e phi T k_0 k_0_Ea k_0_Tref alpha F R : ℝ)
    (OCV : ℝ → ℝ) (c_s_max : ℝ) : ℝ :=
  let eta := phi - OCV (c_s / c_s_max)
  let BV := Real.exp (alpha * F * eta / (R * T)) - Real.exp (-alpha * F * eta / (R * T))
  let k_0_eff := k_0 * Real.exp (k_0_Ea / R * (1 / k_0_Tref - 1 / T))
  let i_0 := k_0_eff * c_e ^ alpha * (c_s_max - c_s) ^ alpha * c_s ^ alpha
  i_0 * BV

/-- Arrhenius-corrected rate constant as written in the spec:
`k_eff = k0 * exp(Ea/R * (1/Tref - 1/T))`. -/
noncomputable def spec_k_eff (k0 Ea R Tref T : ℝ) : ℝ :=
  k0 * Real.exp (Ea / R * (1 / Tref - 1 / T))

/-- Exchange current as written in the spec:
`i0 = k_eff * c_e^alpha * (c_max - c_s)^alpha * c_s^alpha`. -/
noncomputable def spec_i0 (k0 Ea R Tref T alpha c_e c_s c_max : ℝ) : ℝ :=
  spec_k_eff k0 Ea R Tref T * c_e ^ alpha * (c_max - c_s) ^ alpha * c_s ^ alpha

/-- Overpotential as written in the spec: `eta = phi - OCV(c_s/c_max)`. -/
noncomputable def spec_eta (phi : ℝ) (OCV : ℝ → ℝ) (c_s c_max : ℝ) : ℝ :=
  phi - OCV (c_s / c_max)

/-- Butler-Volmer flux as written in the spec:
`j = i0 * (exp(alpha*F*eta/(R*T)) - exp(-(alpha*F*eta/(R*T))))` with the `i0`, `eta`
and `k_eff` of the spec. -/
noncomputable def spec_j_li (c_s c_e phi T k_0 k_0_Ea k_0_Tref alpha F R : ℝ)
    (OCV : ℝ → ℝ) (c_s_max : ℝ) : ℝ :=
  spec_i0 k_0 k_0_Ea R k_0_Tref T alpha c_e c_s c_s_max *
    (Real.exp (alpha * F * spec_eta phi OCV c_s c_s_max / (R * T)) -
      Real.exp (-(alpha * F * spec_eta phi OCV c_s c_s_max / (R * T))))

/-- Polynomials in the numpy.polynomial convention: a coefficient list, degree-ascending.
Addition pads the shorter list (numpy `polyadd`). -/
def polyadd : List ℚ → List ℚ → List ℚ
  | [], q => q
  | p, [] => p
  | a :: p, b :: q => (a + b) :: polyadd p q

/-- Multiplication of a polynomial by a scalar. -/
def polyscale (c : ℚ) (p : List ℚ) : List ℚ := p.map (fun a => c * a)

/-- Product of two coefficient lists (numpy `polymul`). -/
def polymul : List ℚ → List ℚ → List ℚ
  | [], _ => []
  | a :: p, q => polyadd (polyscale a q) (0 :: polymul p q)

/-- Evaluation of a coefficient list at a point (numpy `polyval(x, c)`). -/
def polyval (x : ℚ) (p : List ℚ) : ℚ := p.foldr (fun a acc => a + x * acc) 0

/-- Antiderivative with zero integration constant (numpy `polyint`): coefficient `a` at
degree `i` moves to degree `i+1` divided by `i+1`. -/
def polyint (p : List ℚ) : List ℚ :=
  0 :: List.zipWith (fun a i => a / ((i : ℚ) + 1)) p (List.range p.length)

/-- Derivative of a coefficient list (numpy `polyder`): coefficient at degree `i+1` times
`i+1` moves to degree `i`. -/
def polyder (p : List ℚ) : List ℚ :=
  List.zipWith (fun a i => ((i : ℚ) + 1) * a) (p.drop 1) (List.range (p.drop 1).length)

/-- Modelled from the spec: the nodal points of the `Lagrange` basis class
(`cideMOD.numerics.polynomials.Lagrange`, not included under src).  The spec describes
the basis as "Lagrange nodal polynomials on the film domain" of the given order, i.e.
`n = order+1` interpolation points; we take them equispaced on [0, 1]
(`numpy.linspace(0, 1, num=n)`, which returns `[0]` for `n = 1` and the empty array for
`n = 0`). -/
def lagPoints (n : ℕ) : List ℚ :=
  (List.range n).map (fun i => if n ≤ 1 then 0 else (i : ℚ) / ((n : ℚ) - 1))

/-- Modelled from the spec: Lagrange nodal basis polynomial number `i` of the `n`-point
family, the product of `(x - x_j)/(x_i - x_j)` over the other nodes `j`. -/
def lagBasis (n i : ℕ) : List ℚ :=
  ((List.range n).filter (fun j => j ≠ i)).foldl
    (fun acc j =>
      polymul acc
        (polyscale (((lagPoints n).getD i 0 - (lagPoints n).getD j 0)⁻¹)
          [-(lagPoints n).getD j 0, 1]))
    [1]

/-- The operator matrices produced by `SEI.SpectralLagrangeModel_EC.build_matrix`,
as lists of rows. -/
structure SLagMatrices where
  D : List (List ℚ)
  K1 : List (List ℚ)
  K2 : List (List ℚ)
  P : List ℚ

/-- Elementwise matrix sum (numpy `+` on equal-shape 2-d arrays). -/
def matAdd (A B : List (List ℚ)) : List (List ℚ) :=
  List.zipWith (List.zipWith (fun x y => x + y)) A B

/-- Elementwise matrix difference (numpy `-` on equal-shape 2-d arrays). -/
def matSub (A B : List (List ℚ)) : List (List ℚ) :=
  List.zipWith (List.zipWith (fun x y => x - y)) A B

/-- Embedding of `SEI.SpectralLagrangeModel_EC.build_matrix` (degradation/equations.py,
lines 236-269) with `n = order+1` basis polynomials: the six `n × n` entry matrices are
built from closed-form polynomial products, integrals and endpoint evaluations, each is
sliced `[:, 0:-1]` (drop the last column), and the outputs are
`D = K_d`, `K1 = L_d - M_d + J_d`, `K2 = N_d - H_d`, `P = P_d`.
The basis family `f` (and its derivative `df` and `x·df`) is the spec-modelled
`Lagrange` basis `lagBasis`. -/
def build_matrixN (n : ℕ) : SLagMatrices :=
  let f : ℕ → List ℚ := fun i => lagBasis n i
  let df : ℕ → List ℚ := fun i => polyder (f i)
  let xdf : ℕ → List ℚ := fun i => polymul [0, 1] (df i)
  let Jm := List.ofFn (fun i : Fin n => List.ofFn (fun j : Fin n =>
    polyval 0 (polymul (f i) (f j))))
  let Hm := List.ofFn (fun i : Fin n => List.ofFn (fun j : Fin n =>
    polyval 1 (polymul (df i) (f j))))
  let Km := List.ofFn (fun i : Fin n => List.ofFn (fun j : Fin n =>
    polyval 1 (polyint (polymul (f i) (f j)))))
  let Lm := List.ofFn (fun i : Fin n => List.ofFn (fun j : Fin n =>
    polyval 1 (polyint (polymul (df i) (f j)))))
  let Mm := List.ofFn (fun i : Fin n => List.ofFn (fun j : Fin n =>
    polyval 1 (polyint (polymul (xdf i) (f j)))))
  let Nm := List.ofFn (fun i : Fin n => List.ofFn (fun j : Fin n =>
    polyval 1 (polyint (polymul (df i) (df j)))))
  let J_d := Jm.map List.dropLast
  let H_d := Hm.map List.dropLast
  let K_d := Km.map List.dropLast
  let L_d := Lm.map List.dropLast
  let M_d := Mm.map List.dropLast
  let N_d := Nm.map List.dropLast
  let P_d := List.ofFn (fun i : Fin n => polyval 0 (f i))
  { D := K_d, K1 := matAdd (matSub L_d M_d) J_d, K2 := matSub N_d H_d, P := P_d }

/-- `build_matrix` for a nonnegative spectral order: `order+1` basis polynomials. -/
def build_matrix (order : ℕ) : SLagMatrices := build_matrixN (order + 1)

/-- Result of constructing `SEI.SpectralLagrangeModel_EC`: the stored order and the
operator matrices built at construction. -/
structure SLagModel where
  order : ℤ
  mats : SLagMatrices

/-- Embedding of `SEI.SpectralLagrangeModel_EC.__init__` (degradation/equations.py,
lines 223-234).  The constructor asserts `tag in ('anode', 'cathode')` and performs no
check on `order`; it then builds the `Lagrange(order)` basis and calls `build_matrix`.
Modelled from the spec for the missing `Lagrange` class: building the basis requires
`order+1`, the number of nodal points, to be nonnegative (`numpy.linspace` and
`numpy.zeros` reject a negative size, which is the only way a negative order can fail),
so `order = -1` constructs an empty basis and `0 × 0` sliced matrices successfully. -/
def SpectralLagrangeModel_EC_init (tag : String) (order : ℤ) : Option SLagModel :=
  if tag = "anode" ∨ tag = "cathode" then
    if 0 ≤ order + 1 then some ⟨order, build_matrixN (order + 1).toNat⟩ else none
  else none

/-- Embedding of `SEI.__init__` (degradation/equations.py, lines 136-141): asserts
`tag in ['anode', 'cathode']`, stores `order` untouched; the spectral sub-model is not
built until `setup`, so no order-dependent computation happens at SEI construction. -/
def SEI_init (tag : String) (order : ℤ) : Option (String × ℤ) :=
  if tag = "anode" ∨ tag = "cathode" then some (tag, order) else none

/-- Concrete one-node, one-material, one-dof state used for the time-filter
counterexample: previous generation 0, current generation 1, twice-previous 0. -/
def dbC1 : ParticleDB 1 1 1 := ⟨fun _ _ _ => 0, fun _ _ _ => 1, fun _ _ _ => 0⟩

/-- Concrete state used by the witness of the amended time-filter theorem. -/
def dbC1w : ParticleDB 1 1 1 := ⟨fun _ _ _ => 3, fun _ _ _ => 7, fun _ _ _ => 2⟩

/-- One concrete material with configured initial concentration 5. -/
def matsC4 : Fin 1 → Material := fun _ => ⟨5⟩

/-- Concrete all-zero one-node, one-material, one-dof state. -/
def dbC4 : ParticleDB 1 1 1 := fill_db (fun _ => 0)

/-- Concrete material list and base state for the length-check witness. -/
def matsC8 : Fin 1 → Material := fun _ => ⟨1⟩

/-- Concrete base state for the length-check witness. -/
def dbC8 : ParticleDB 1 1 1 := fill_db (fun _ => 0)

/-- C6: calling the generation-advance operation once makes the previous generation
equal the pre-advance current generation and the twice-previous generation equal the
pre-advance previous generation (the two in-place assignments of `advance_problem`,
executed in source order, roll the generations without losing the pre-advance
previous). -/
theorem advance_problem_rolls_generations {n m d : ℕ} (db : ParticleDB n m d) :
    (advance_problem db).c_s_0_db = db.c_s_1_db ∧
    (advance_problem db).c_s__1_db = db.c_s_0_db :=
  ⟨rfl, rfl⟩

/-- C7: the lithium reaction flux `_j_li` equals the spec's Butler-Volmer law
`i0 * (exp(alpha*F*eta/(R*T)) - exp(-alpha*F*eta/(R*T)))` with the spec's exchange
current `i0`, Arrhenius factor `k_eff` and overpotential `eta`. -/
theorem j_li_matches_spec (c_s c_e phi T k_0 k_0_Ea k_0_Tref alpha F R : ℝ)
    (OCV : ℝ → ℝ) (c_s_max : ℝ) :
    j_li_code c_s c_e phi T k_0 k_0_Ea k_0_Tref alpha F R OCV c_s_max =
      spec_j_li c_s c_e phi T k_0 k_0_Ea k_0_Tref alpha F R OCV c_s_max := by
  unfold j_li_code spec_j_li spec_i0 spec_k_eff spec_eta
  simp only [neg_mul, neg_div]

/-- C10: calling `initial_guess` with no argument (the default empty list) does not
reject: it fills all three generation arrays with each material's configured `c_s_ini`
at every node and radial dof. -/
theorem initial_guess_default_fills {n m d : ℕ} (mats : Fin m → Material)
    (db : ParticleDB n m d) :
    initial_guess mats db [] = some (fill_db (fun i => (mats i).c_s_ini)) ∧
    ∀ (a : Fin n) (i : Fin m) (r : Fin d),
      ((initial_guess mats db []).getD db).c_s_0_db a i r = (mats i).c_s_ini ∧
      ((initial_guess mats db []).getD db).c_s_1_db a i r = (mats i).c_s_ini ∧
      ((initial_guess mats db []).getD db).c_s__1_db a i r = (mats i).c_s_ini := by
  exact ⟨rfl, fun a i r => ⟨rfl, rfl, rfl⟩⟩

/-- C8: `initial_guess` rejects a non-empty value list whose length differs from the
number of active materials, and on acceptance writes the given per-material values
identically into all three generation arrays at every node and radial dof. -/
theorem initial_guess_length_check {n m d : ℕ} (mats : Fin m → Material)
    (db : ParticleDB n m d) (l : List ℚ) (hne : l ≠ []) :
    (l.length ≠ m → initial_guess mats db l = none) ∧
    (l.length = m →
      initial_guess mats db l = some (fill_db (fun i => l.getD i 0)) ∧
      ∀ (a : Fin n) (i : Fin m) (r : Fin d),
        ((initial_guess mats db l).getD db).c_s_0_db a i r = l.getD i 0 ∧
        ((initial_guess mats db l).getD db).c_s_1_db a i r = l.getD i 0 ∧
        ((initial_guess mats db l).getD db).c_s__1_db a i r = l.getD i 0) := by
  constructor
  · intro hlen
    simp [initial_guess, hne, hlen]
  · intro hlen
    constructor
    · simp [initial_guess, hne, hlen]
    · intro a i r
      simp [initial_guess, hne, hlen, fill_db]

/-- Witness for the length-check theorem at a concrete input: one material, the
two-element list `[2, 3]` is rejected and the one-element list `[7]` is accepted and
written into all generations. -/
theorem initial_guess_length_check_w :
    ([(2 : ℚ), 3] ≠ []) ∧ initial_guess matsC8 dbC8 [2, 3] = none ∧
    initial_guess matsC8 dbC8 [7] = some (fill_db (fun i => [(7 : ℚ)].getD i 0)) := by
  refine ⟨by simp, ?_, ?_⟩
  · exact (initial_guess_length_check matsC8 dbC8 [2, 3] (by simp)).1 (by simp)
  · exact ((initial_guess_length_check matsC8 dbC8 [7] (by simp)).2 (by simp)).1

/-- C3: with the stress LAM model and cracking exponent `m > 0`, the per-pair
active-material-fraction increment is exactly 0 when the hydrostatic stress is
nonpositive, and `-(delta_t * beta * (sigma_h/sigma_crit)^m)` when it is positive. -/
theorem eps_s_variation_sign (b mm dt sc sh : ℝ) (hm : 0 < mm) :
    (sh ≤ 0 → eps_s_entry ("stress") b mm dt sc sh = 0) ∧
    (0 < sh → eps_s_entry ("stress") b mm dt sc sh = -(dt * b * (sh / sc) ^ mm)) := by
  constructor
  · intro hsh
    simp [eps_s_entry, not_lt.mpr hsh, Real.zero_rpow hm.ne']
  · intro hsh
    simp only [eps_s_entry, if_pos, hsh, if_true, reduceIte]
    ring

/-- Witness for the sign theorem at concrete inputs: exponent 1, stress -1 gives 0 and
stress 2 gives the power-law value. -/
theorem eps_s_variation_sign_w :
    (0 : ℝ) < 1 ∧ eps_s_entry ("stress") 2 1 3 4 (-1) = 0 ∧
    eps_s_entry ("stress") 2 1 3 4 2 = -(3 * 2 * ((2 : ℝ) / 4) ^ (1 : ℝ)) := by
  refine ⟨one_pos, ?_, ?_⟩
  · exact (eps_s_variation_sign 2 1 3 4 (-1) one_pos).1 (by norm_num)
  · exact (eps_s_variation_sign 2 1 3 4 2 one_pos).2 (by norm_num)

/-- C1 counterexample: at the concrete state with current generation 1 and the other two
generations 0, with `nu = 1` and `tau = 1` (so `tau` differs from -1), the value returned
by `get_time_filter_error` is not the norm the claim states: the code computes the norm
of `nu*(current/(1+tau) - previous + ...)`, the claim `nu*(previous/(1+tau) - current
+ ...)`. -/
theorem get_time_filter_error_cex :
    ((1 : ℚ) ≠ -1) ∧
    get_time_filter_error 1 1 dbC1 ≠ claimed_time_filter_error 1 1 dbC1 := by
  refine ⟨by norm_num, ?_⟩
  have h1 : sumSq (time_filter_vec 1 1 dbC1) = 1 / 4 := by
    simp [sumSq, time_filter_vec, dbC1]
    norm_num
  have h2 : sumSq (claimed_time_filter_vec 1 1 dbC1) = 1 := by
    simp [sumSq, claimed_time_filter_vec, dbC1]
  unfold get_time_filter_error claimed_time_filter_error frobNorm
  rw [h1, h2]
  intro h
  have h3 := (Real.sqrt_inj (by norm_num) (by norm_num)).mp h
  norm_num at h3

/-- C1 amended: for every state and all scalars `nu`, `tau` with `tau` different from -1,
`get_time_filter_error` returns the norm of
`nu*(current/(1+tau) - previous + tau*prevprev/(1+tau))` — the claim's formula with the
roles of the current and previous generations exchanged in the first two terms. -/
theorem get_time_filter_error_amended {n m d : ℕ} (nu tau : ℚ) (db : ParticleDB n m d)
    (htau : tau ≠ -1) :
    get_time_filter_error nu tau db = amended_time_filter_error nu tau db := by
  have hv : time_filter_vec nu tau db = amended_time_filter_vec nu tau db := by
    funext a i r
    unfold time_filter_vec amended_time_filter_vec
    ring
  unfold get_time_filter_error amended_time_filter_error
  rw [hv]

/-- Witness for the amended time-filter theorem at a concrete state and scalars. -/
theorem get_time_filter_error_amended_w :
    ((1 : ℚ) ≠ -1) ∧
    get_time_filter_error 2 1 dbC1w = amended_time_filter_error 2 1 dbC1w :=
  ⟨by norm_num, get_time_filter_error_amended 2 1 dbC1w (by norm_num)⟩

/-- C2 counterexample: with `delta_t = M = F = rho = 1` and a strictly positive SEI
current `j_SEI = 1`, the thickness pair `delta_0 = 1`, `delta_1 = 1/2` satisfies the
`delta_growth` residual exactly, yet the new thickness is strictly smaller than the old:
with the code's sign convention a positive `j_sei` shrinks the film. -/
theorem delta_growth_cex :
    (0 : ℚ) < 1 ∧ delta_growth true 1 1 (1 / 2) 1 1 1 1 = 0 ∧ ¬ ((1 : ℚ) ≤ 1 / 2) := by
  norm_num [delta_growth, DT_dt]

/-- C2 amended: the code's convention solves `j_SEI = -i_0s * exp(...) ≤ 0` from the
`j_SEI` residual, so growth corresponds to nonpositive `j_sei`: for positive `delta_t`,
`M`, `F`, `rho` and `j_SEI ≤ 0`, any thickness pair satisfying the `delta_growth`
residual at the new time level is non-decreasing. -/
theorem delta_growth_monotone (dt d0 d1 j M F r : ℚ) (hdt : 0 < dt) (hM : 0 < M)
    (hF : 0 < F) (hr : 0 < r) (hj : j ≤ 0)
    (hres : delta_growth true dt d0 d1 j M F r = 0) : d0 ≤ d1 := by
  unfold delta_growth DT_dt at hres
  simp only [if_true] at hres
  have h2 : (0 : ℚ) < 2 * F * r := by positivity
  have hjM : j * M ≤ 0 := mul_nonpos_of_nonpos_of_nonneg hj hM.le
  have h3 : j * M / (2 * F * r) ≤ 0 := div_nonpos_of_nonpos_of_nonneg hjM h2.le
  have h4 : 0 ≤ (d1 - d0) / dt := by linarith
  have h5 : 0 ≤ (d1 - d0) / dt * dt := mul_nonneg h4 hdt.le
  rw [div_mul_cancel₀ _ hdt.ne'] at h5
  linarith

/-- Witness for the monotone-growth theorem at concrete inputs: `j_SEI = -1` and the
residual-satisfying pair `delta_0 = 1`, `delta_1 = 3/2`. -/
theorem delta_growth_monotone_w :
    delta_growth true 1 1 (3 / 2) (-1) 1 1 1 = 0 ∧ (1 : ℚ) ≤ 3 / 2 := by
  refine ⟨by norm_num [delta_growth, DT_dt], ?_⟩
  exact delta_growth_monotone 1 1 (3 / 2) (-1) 1 1 1 (by norm_num) (by norm_num)
    (by norm_num) (by norm_num) (by norm_num) (by norm_num [delta_growth, DT_dt])

/-- C4 counterexample: with one material configured with `c_s_ini = 5`, filling all
nodes and materials uniformly with `c0 = 3` through `initial_guess` and then calling
`get_average_c_s` with the subtract-initial option returns `3 - 5 = -2`, not 0: the
subtraction always uses the configured `c_s_ini`, not the value used to fill. -/
theorem get_average_c_s_cex :
    (initial_guess matsC4 dbC4 [3]).isSome = true ∧
    get_average_c_s true matsC4 ((initial_guess matsC4 dbC4 [3]).getD dbC4) 0 0 = -2 ∧
    ((-2 : ℚ) ≠ 0) := by
  refine ⟨rfl, ?_, by norm_num⟩
  show get_average_c_s true matsC4 (fill_db (fun i => [(3 : ℚ)].getD i 0)) 0 0 = -2
  simp [get_average_c_s, fill_db, matsC4]
  norm_num

/-- C4 amended: the subtract-initial average is all zeros before any solve exactly when
the filled values equal the materials' configured `c_s_ini` — in particular after the
default (no-argument) `initial_guess`, which fills every node, material and dof with the
configured values: then `get_average_c_s` with the subtract-initial option returns 0 for
every (node, material) pair.  An explicit uniform fill `c0` instead returns
`c0 - c_s_ini`. -/
theorem get_average_c_s_increment_default {n m d : ℕ} (mats : Fin m → Material)
    (db db' : ParticleDB n m d) (hd : 0 < d)
    (h : initial_guess mats db [] = some db') :
    ∀ (a : Fin n) (i : Fin m), get_average_c_s true mats db' a i = 0 := by
  have hdb : db' = fill_db (fun i => (mats i).c_s_ini) := by
    have h' : some (fill_db (fun i => (mats i).c_s_ini) : ParticleDB n m d) = some db' := by
      simpa [initial_guess] using h
    exact (Option.some_injective _ h').symm
  subst hdb
  intro a i
  unfold get_average_c_s fill_db
  rw [Finset.sum_const, Finset.card_univ, Fintype.card_fin, nsmul_eq_mul,
    mul_div_cancel_left₀ _ (show ((d : ℚ)) ≠ 0 by exact_mod_cast hd.ne')]
  simp

/-- Witness for the amended average-concentration theorem: one node, one material with
`c_s_ini = 5`, one dof; after the default fill the incremental average is 0. -/
theorem get_average_c_s_increment_default_w :
    (0 : ℕ) < 1 ∧
    get_average_c_s true matsC4
      (fill_db (fun i => (matsC4 i).c_s_ini) : ParticleDB 1 1 1) 0 0 = 0 := by
  refine ⟨by norm_num, ?_⟩
  exact get_average_c_s_increment_default matsC4 dbC4
    (fill_db (fun i => (matsC4 i).c_s_ini)) (by norm_num) rfl 0 0

/-- C9 counterexample: constructing the SEI spectral model with the malformed order -1
does not fail: both the `SEI` constructor and the `SpectralLagrangeModel_EC` constructor
accept it silently (only the electrode tag is validated). -/
theorem spectral_init_cex :
    ((-1 : ℤ) < 0) ∧ (SpectralLagrangeModel_EC_init ("anode") (-1)).isSome = true ∧
    (SEI_init ("anode") (-1)).isSome = true :=
  ⟨by norm_num, rfl, rfl⟩

/-- C9 amended: neither constructor validates the order.  `SEI.__init__` stores any
order untouched, and `SpectralLagrangeModel_EC.__init__` succeeds for every order at
least -1 (for -1 the basis is empty and the sliced operator matrices are trivially
built); only orders below -1 fail, and then only through the underlying array-size
error, so a malformed negative order is not rejected fast at construction. -/
theorem spectral_init_no_order_check (o : ℤ) (h : -1 ≤ o) :
    (SpectralLagrangeModel_EC_init ("anode") o).isSome = true ∧
    (SpectralLagrangeModel_EC_init ("cathode") o).isSome = true ∧
    (SEI_init ("anode") o).isSome = true := by
  have h1 : (0 : ℤ) ≤ o + 1 := by linarith
  unfold SpectralLagrangeModel_EC_init SEI_init
  simp [h1]

/-- Witness for the no-order-check theorem at the concrete order -1. -/
theorem spectral_init_no_order_check_w :
    ((-1 : ℤ) ≤ -1) ∧ (SpectralLagrangeModel_EC_init ("cathode") (-1)).isSome = true :=
  ⟨le_refl _, (spectral_init_no_order_check (-1) (le_refl _)).2.1⟩

/-- Row lengths of an `n × n` entry matrix after the `[:, 0:-1]` slice: `n` rows of
length `n - 1`. -/
theorem map_length_slice {n : ℕ} (g : Fin n → Fin n → ℚ) :
    ((List.ofFn (fun i => List.ofFn (g i))).map List.dropLast).map List.length
      = List.replicate n (n - 1) := by
  rw [List.map_map, List.map_ofFn]
  have h : (List.length ∘ List.dropLast) ∘ (fun i => List.ofFn (g i))
      = fun _ : Fin n => n - 1 := by
    funext i
    simp
  rw [h, List.ofFn_const]

/-- Row lengths are preserved by an elementwise combination of two matrices of the same
shape. -/
theorem map_length_zipWith_mat (f : ℚ → ℚ → ℚ) (A : List (List ℚ)) :
    ∀ (B : List (List ℚ)) (k c : ℕ),
      A.map List.length = List.replicate k c → B.map List.length = List.replicate k c →
      (List.zipWith (List.zipWith f) A B).map List.length = List.replicate k c := by
  induction A with
  | nil =>
    intro B k c hA _
    rw [List.map_nil] at hA
    have hk : k = 0 := by
      rcases k with _ | k'
      · rfl
      · simp [List.replicate_succ] at hA
    subst hk
    simp
  | cons a A ih =>
    intro B k c hA hB
    rcases k with _ | k'
    · simp at hA
    · rcases B with _ | ⟨b, B'⟩
      · simp at hB
      · simp only [List.map_cons, List.replicate_succ, List.cons.injEq] at hA hB
        obtain ⟨ha, hA'⟩ := hA
        obtain ⟨hb, hB'⟩ := hB
        simp only [List.zipWith_cons_cons, List.map_cons, List.replicate_succ,
          List.cons.injEq]
        exact ⟨by rw [List.length_zipWith, ha, hb, min_self], ih B' k' c hA' hB'⟩

/-- C5: for every spectral order `k`, `build_matrix` produces dense matrices `D`, `K1`,
`K2` with `k+1` rows of `k` entries each (numpy shape `(k+1, k)`) and a boundary vector
`P` of length `k+1`, and running the construction twice with the same order yields
identical matrices. -/
theorem build_matrix_shape (k : ℕ) :
    (build_matrix k).D.map List.length = List.replicate (k + 1) k ∧
    (build_matrix k).K1.map List.length = List.replicate (k + 1) k ∧
    (build_matrix k).K2.map List.length = List.replicate (k + 1) k ∧
    (build_matrix k).D.length = k + 1 ∧ (build_matrix k).K1.length = k + 1 ∧
    (build_matrix k).K2.length = k + 1 ∧ (build_matrix k).P.length = k + 1 ∧
    build_matrix k = build_matrix k := by
  have hD : (build_matrix k).D.map List.length = List.replicate (k + 1) k := by
    have h := map_length_slice (fun i j : Fin (k + 1) =>
      polyval 1 (polyint (polymul (lagBasis (k + 1) i) (lagBasis (k + 1) j))))
    exact h
  have hL := map_length_slice (fun i j : Fin (k + 1) =>
    polyval 1 (polyint (polymul (polyder (lagBasis (k + 1) i)) (lagBasis (k + 1) j))))
  have hM := map_length_slice (fun i j : Fin (k + 1) =>
    polyval 1 (polyint (polymul (polymul [0, 1] (polyder (lagBasis (k + 1) i)))
      (lagBasis (k + 1) j))))
  have hJ := map_length_slice (fun i j : Fin (k + 1) =>
    polyval 0 (polymul (lagBasis (k + 1) i) (lagBasis (k + 1) j)))
  have hN := map_length_slice (fun i j : Fin (k + 1) =>
    polyval 1 (polyint (polymul (polyder (lagBasis (k + 1) i))
      (polyder (lagBasis (k + 1) j)))))
  have hH := map_length_slice (fun i j : Fin (k + 1) =>
    polyval 1 (polymul (polyder (lagBasis (k + 1) i)) (lagBasis (k + 1) j)))
  have hK1 : (build_matrix k).K1.map List.length = List.replicate (k + 1) k := by
    have h1 := map_length_zipWith_mat (fun x y => x - y) _ _ (k + 1) ((k + 1) - 1) hL hM
    have h2 := map_length_zipWith_mat (fun x y => x + y) _ _ (k + 1) ((k + 1) - 1) h1 hJ
    exact h2
  have hK2 : (build_matrix k).K2.map List.length = List.replicate (k + 1) k := by
    have h1 := map_length_zipWith_mat (fun x y => x - y) _ _ (k + 1) ((k + 1) - 1) hN hH
    exact h1
  refine ⟨hD, hK1, hK2, ?_, ?_, ?_, ?_, rfl⟩
  · simpa using congrArg List.length hD
  · simpa using congrArg List.length hK1
  · simpa using congrArg List.length hK2
  · show (List.ofFn (fun i : Fin (k + 1) => polyval 0 (lagBasis (k + 1) i))).length = k + 1
    simp
